import Mathlib

/-!
Verification of the Meshtastic MQTT bridge (wesense-respiro).

Shallow embedding of `tools/meshtastic_mqtt_monitor.py` (packet decryption)
and `tools/meshtastic_decoder.py` (node cache and telemetry correlator).
Bytes are modelled as `List Nat` with each element below 256; Python ints
are `Nat`; Python floats that are only carried (never computed with) are
modelled as `ℚ`; dictionaries are association lists.
-/

namespace Respiro

/-! ## Byte-string encodings

`leBytes n v` models Python `v.to_bytes(n, 'little')` for `v < 256 ^ n`. -/

def leBytes : Nat → Nat → List Nat
  | 0, _ => []
  | n + 1, v => (v % 256) :: leBytes n (v / 256)

def fromLEBytes : List Nat → Nat
  | [] => 0
  | b :: rest => b + 256 * fromLEBytes rest

theorem leBytes_length (n v : Nat) : (leBytes n v).length = n := by
  induction n generalizing v with
  | zero => rfl
  | succ n ih => simp [leBytes, ih]

theorem leBytes_mem_lt (n v : Nat) : ∀ b ∈ leBytes n v, b < 256 := by
  induction n generalizing v with
  | zero => intro b hb; simp [leBytes] at hb
  | succ n ih =>
    intro b hb
    simp only [leBytes, List.mem_cons] at hb
    rcases hb with h | h
    · exact h ▸ Nat.mod_lt _ (by norm_num)
    · exact ih _ b h

theorem fromLEBytes_leBytes (n v : Nat) (h : v < 256 ^ n) :
    fromLEBytes (leBytes n v) = v := by
  induction n generalizing v with
  | zero => simp [leBytes, fromLEBytes]; omega
  | succ n ih =>
    have hdiv : v / 256 < 256 ^ n := by
      rw [Nat.div_lt_iff_lt_mul (by norm_num : 0 < 256)]
      calc v < 256 ^ (n + 1) := h
        _ = 256 ^ n * 256 := by ring
    simp [leBytes, fromLEBytes, ih _ hdiv]
    omega

theorem leBytes_fromLEBytes (l : List Nat) (h : ∀ b ∈ l, b < 256) :
    leBytes l.length (fromLEBytes l) = l := by
  induction l with
  | nil => rfl
  | cons b rest ih =>
    have hb : b < 256 := h b (List.mem_cons_self _ _)
    simp only [List.length_cons, leBytes, fromLEBytes]
    congr 1
    · omega
    · have hq : (b + 256 * fromLEBytes rest) / 256 = fromLEBytes rest := by
        omega
      rw [hq]
      exact ih fun x hx => h x (List.mem_cons_of_mem _ hx)

theorem fromLEBytes_lt (l : List Nat) (h : ∀ b ∈ l, b < 256) :
    fromLEBytes l < 256 ^ l.length := by
  induction l with
  | nil => simp [fromLEBytes]
  | cons b rest ih =>
    have hb : b < 256 := h b (List.mem_cons_self _ _)
    have hr := ih fun x hx => h x (List.mem_cons_of_mem _ hx)
    simp only [fromLEBytes, List.length_cons, pow_succ]
    calc b + 256 * fromLEBytes rest
        < 256 + 256 * fromLEBytes rest := by omega
      _ = 256 * (fromLEBytes rest + 1) := by ring
      _ ≤ 256 * 256 ^ rest.length := by
          exact Nat.mul_le_mul_left _ hr
      _ = 256 ^ rest.length * 256 := by ring

/-! ## Packet decryptor (`MeshtasticMonitor._decrypt_packet`)

The source builds the nonce as
`packet_id.to_bytes(8, 'little') + from_node.to_bytes(8, 'little')`,
normalizes the channel key, and runs AES-CTR.  The AES block function
itself lives in the external `cryptography` library; the embedding takes
it as a parameter `E : key → counter block → 16-byte keystream block`.
CTR mode treats the 16-byte nonce as a big-endian 128-bit initial counter
incremented per block. -/

def mkNonce (packetId fromNode : Nat) : List Nat :=
  leBytes 8 packetId ++ leBytes 8 fromNode

/-- Key normalization from `_decrypt_packet`: a 1-byte key is replaced by
the fixed block `0x01` plus 15 zero bytes; other keys shorter than 16
bytes are zero-padded to 16; keys of length 16 to 31 are zero-padded to
32; everything else (length 32 and above) is left unchanged. -/
def normalizeKey (key : List Nat) : List Nat :=
  if key.length = 1 then 0x01 :: List.replicate 15 0
  else if key.length < 16 then key ++ List.replicate (16 - key.length) 0
  else if key.length < 32 then key ++ List.replicate (32 - key.length) 0
  else key

/-- The AES constructor of the `cryptography` library accepts only
128-, 192- or 256-bit keys and raises otherwise. -/
def aesKeyValid (key : List Nat) : Bool :=
  key.length = 16 || key.length = 24 || key.length = 32

/-- Counter block `i` of CTR mode: the nonce taken as a big-endian
128-bit integer, plus `i`, modulo `2 ^ 128`, re-encoded big-endian. -/
def counterBlock (nonce : List Nat) (i : Nat) : List Nat :=
  (leBytes 16 ((fromLEBytes nonce.reverse + i) % 2 ^ 128)).reverse

/-- Concatenation of the first `m` keystream blocks. -/
def ctrBlocks (E : List Nat → List Nat → List Nat) (key nonce : List Nat) :
    Nat → List Nat
  | 0 => []
  | m + 1 => ctrBlocks E key nonce m ++ E key (counterBlock nonce m)

/-- Keystream truncated to `len` bytes; `(len + 15) / 16` blocks cover it. -/
def ctrKeystream (E : List Nat → List Nat → List Nat)
    (key nonce : List Nat) (len : Nat) : List Nat :=
  List.take len (ctrBlocks E key nonce ((len + 15) / 16))

/-- CTR encryption and decryption are the same XOR with the keystream. -/
def ctrProcess (E : List Nat → List Nat → List Nat)
    (key nonce data : List Nat) : List Nat :=
  List.zipWith Nat.xor data (ctrKeystream E key nonce data.length)

/-- Embedding of `_decrypt_packet`: build the nonce, normalize the key,
run AES-CTR; any cipher error (in particular an invalid key length) is
caught and turned into `none`. -/
def decryptPacket (E : List Nat → List Nat → List Nat)
    (channelKey : List Nat) (packetId fromNode : Nat)
    (encryptedPayload : List Nat) : Option (List Nat) :=
  let nonce := mkNonce packetId fromNode
  let key := normalizeKey channelKey
  if aesKeyValid key then some (ctrProcess E key nonce encryptedPayload)
  else none

/-- Modelled from the spec: the repository contains no encryption routine,
only `_decrypt_packet`; the spec's round-trip property refers to standard
CTR encryption, which applies the same key normalization, derives the same
nonce from (packetId, fromNode), and XORs the plaintext with the same
keystream. -/
def encryptPacket (E : List Nat → List Nat → List Nat)
    (channelKey : List Nat) (packetId fromNode : Nat)
    (plaintext : List Nat) : Option (List Nat) :=
  let nonce := mkNonce packetId fromNode
  let key := normalizeKey channelKey
  if aesKeyValid key then some (ctrProcess E key nonce plaintext)
  else none

/-! ## Association-list dictionaries

Python `dict` keyed by node id strings. -/

def dictGet {α : Type} (k : String) : List (String × α) → Option α
  | [] => none
  | (k₁, v) :: rest => if k₁ = k then some v else dictGet k rest

def dictInsert {α : Type} (k : String) (v : α)
    (l : List (String × α)) : List (String × α) :=
  (k, v) :: l.filter (fun e => e.1 ≠ k)

def dictErase {α : Type} (k : String)
    (l : List (String × α)) : List (String × α) :=
  l.filter (fun e => e.1 ≠ k)

theorem dictGet_insert {α : Type} (k : String) (v : α)
    (l : List (String × α)) : dictGet k (dictInsert k v l) = some v := by
  simp [dictInsert, dictGet]

theorem dictGet_erase {α : Type} (k : String) (l : List (String × α)) :
    dictGet k (dictErase k l) = none := by
  induction l with
  | nil => rfl
  | cons e rest ih =>
    by_cases h : e.1 = k
    · simpa [dictErase, List.filter, h] using ih
    · simpa [dictErase, List.filter, h, dictGet] using ih

/-! ## Node cache (`NodeCache` of `meshtastic_decoder.py`)

A position entry holds latitude/longitude (floats only carried through,
modelled as `ℚ`), an optional altitude, a data timestamp and the
`updated_at` stamp used for TTL eviction.  Times are seconds (`Nat`). -/

structure PosEntry where
  latitude : ℚ
  longitude : ℚ
  altitude : Option ℤ
  timestamp : Nat
  updated_at : Nat
deriving DecidableEq, Repr

structure NodeCache where
  positions : List (String × PosEntry)
  node_names : List (String × String)
  hardware_models : List (String × Nat)
  max_age : Nat
deriving DecidableEq, Repr

/-- Both constructions of `NodeCache` in the source pass 86400 s (24 h). -/
def defaultMaxAge : Nat := 86400

/-- Snapshot file contents written by `save_cache`. -/
structure Snapshot where
  positions : List (String × PosEntry)
  node_names : List (String × String)
  hardware_models : List (String × Nat)
  saved_at : Nat
deriving DecidableEq, Repr

/-- Embedding of `save_cache`: serialize the full cache state plus the
current time as `saved_at`. -/
def saveCache (c : NodeCache) (now : Nat) : Snapshot :=
  ⟨c.positions, c.node_names, c.hardware_models, now⟩

/-- Embedding of `update_position`: overwrite the node's entry, stamping
`updated_at` with the current time and substituting it for a missing data
timestamp, then write the snapshot (write-through). -/
def updatePosition (c : NodeCache) (nodeId : String) (lat lon : ℚ)
    (alt : Option ℤ) (ts : Option Nat) (now : Nat) :
    NodeCache × Snapshot :=
  let entry : PosEntry := ⟨lat, lon, alt, ts.getD now, now⟩
  let c₁ := { c with positions := dictInsert nodeId entry c.positions }
  (c₁, saveCache c₁ now)

/-- Embedding of `update_name`. -/
def updateName (c : NodeCache) (nodeId : String) (longName : String)
    (now : Nat) : NodeCache × Snapshot :=
  let c₁ := { c with node_names := dictInsert nodeId longName c.node_names }
  (c₁, saveCache c₁ now)

/-- Embedding of `update_hardware`. -/
def updateHardware (c : NodeCache) (nodeId : String) (hwModel : Nat)
    (now : Nat) : NodeCache × Snapshot :=
  let c₁ := { c with hardware_models := dictInsert nodeId hwModel c.hardware_models }
  (c₁, saveCache c₁ now)

/-- Embedding of `get_position`: lazy TTL eviction.  When the entry's age
`now - updated_at` exceeds `max_age` it is deleted and `none` returned;
no snapshot is written (the source only logs). -/
def getPosition (c : NodeCache) (nodeId : String) (now : Nat) :
    Option PosEntry × NodeCache :=
  match dictGet nodeId c.positions with
  | none => (none, c)
  | some pos =>
    if now - pos.updated_at > c.max_age then
      (none, { c with positions := dictErase nodeId c.positions })
    else
      (some pos, c)

/-- Python `long_name.replace(' ', '_')`, character by character. -/
def sanitizeName (s : String) : String :=
  String.mk (s.data.map (fun ch => if ch = ' ' then '_' else ch))

/-- Embedding of `get_device_name`: `LongName_!nodeid` with spaces in the
long name replaced by underscores, or the bare node id when no name is
cached. -/
def getDeviceName (c : NodeCache) (nodeId : String) : String :=
  match dictGet nodeId c.node_names with
  | some name => sanitizeName name ++ "_" ++ nodeId
  | none => nodeId

/-- Embedding of `get_hardware_model`, kept as the stored enum number (the
source maps it through an external protobuf enum-name table). -/
def getHardwareModel (c : NodeCache) (nodeId : String) : Option Nat :=
  dictGet nodeId c.hardware_models

/-- Embedding of `cleanup_old`: drop every position entry strictly older
than `max_age`. -/
def cleanupOld (maxAge now : Nat) (positions : List (String × PosEntry)) :
    List (String × PosEntry) :=
  positions.filter (fun e => ¬ now - e.2.updated_at > maxAge)

/-- Embedding of `load_cache` followed by the constructor's cleanup: a
missing snapshot yields a fresh cache; otherwise all three maps are
restored and already-expired position entries are purged immediately. -/
def loadCache (maxAge : Nat) (file : Option Snapshot) (now : Nat) :
    NodeCache :=
  match file with
  | none => ⟨[], [], [], maxAge⟩
  | some s => ⟨cleanupOld maxAge now s.positions, s.node_names,
      s.hardware_models, maxAge⟩

/-! ## Telemetry correlator (`MeshtasticDecoder`)

Protobuf messages with per-field presence are records of `Option`s;
`time` uses the source's truthiness convention (0 means absent).  Metric
values are floats that are only carried through, modelled as `ℚ`. -/

structure EnvMetrics where
  temperature : Option ℚ
  relative_humidity : Option ℚ
  barometric_pressure : Option ℚ
  gas_resistance : Option ℚ
  iaq : Option ℚ
deriving DecidableEq, Repr

structure AirQualityMetrics where
  pm10_standard : Option ℚ
  pm25_standard : Option ℚ
  pm100_standard : Option ℚ
  co2 : Option ℚ
  pm_voc_idx : Option ℚ
  pm_nox_idx : Option ℚ
  pm_temperature : Option ℚ
  pm_humidity : Option ℚ
deriving DecidableEq, Repr

structure Telemetry where
  time : Nat
  environment_metrics : Option EnvMetrics
  air_quality_metrics : Option AirQualityMetrics
deriving DecidableEq, Repr

/-- The position dictionary handed to `_publish_reading`: either a cached
entry or the null-location fallback. -/
structure PosDict where
  latitude : Option ℚ
  longitude : Option ℚ
  altitude : Option ℤ
deriving DecidableEq, Repr

def nullPosition : PosDict := ⟨none, none, none⟩

def posDictOfEntry (p : PosEntry) : PosDict :=
  ⟨some p.latitude, some p.longitude, p.altitude⟩

/-- The SkyTrace payload built by `_publish_reading`, including its
constant tag fields, together with the topic it is sent to. -/
structure Reading where
  topic : String
  value : ℚ
  timestamp : Nat
  device_id : String
  latitude : Option ℚ
  longitude : Option ℚ
  altitude : Option ℤ
  location_source : String
  sensor_model : String
  board_model : Option Nat
  reading_type : String
  unit : String
  deployment_region : String
  deployment_type : String
  transport_type : String
deriving DecidableEq, Repr

def mkReading (deviceName sensorType : String) (value : ℚ)
    (timestamp : Nat) (position : PosDict) (unit : String)
    (hardwareModel : Option Nat) : Reading :=
  { topic := "skytrace/decoded/env/" ++ deviceName ++ "/" ++ sensorType
    value := value
    timestamp := timestamp
    device_id := deviceName
    latitude := position.latitude
    longitude := position.longitude
    altitude := position.altitude
    location_source := "gps"
    sensor_model := "MESHTASTIC"
    board_model := hardwareModel
    reading_type := sensorType
    unit := unit
    deployment_region := "ANZ"
    deployment_type := "PORTABLE"
    transport_type := "LORA" }

def optMetric (sensorType : String) (unit : String) :
    Option ℚ → List (String × ℚ × String)
  | none => []
  | some v => [(sensorType, v, unit)]

/-- The `(sensor_type, value, unit)` triples emitted for one telemetry
sample, in the exact order of the `if em.HasField(...)` / `if
aq.HasField(...)` chains of `_handle_telemetry`. -/
def metricList (t : Telemetry) : List (String × ℚ × String) :=
  (match t.environment_metrics with
   | none => []
   | some em =>
     optMetric "temperature" "°C" em.temperature ++
     optMetric "humidity" "%" em.relative_humidity ++
     optMetric "pressure" "hPa" em.barometric_pressure ++
     optMetric "gas_resistance" "MOhm" em.gas_resistance ++
     optMetric "iaq" "IAQ" em.iaq) ++
  (match t.air_quality_metrics with
   | none => []
   | some aq =>
     optMetric "pm1_0" "µg/m³" aq.pm10_standard ++
     optMetric "pm2_5" "µg/m³" aq.pm25_standard ++
     optMetric "pm10" "µg/m³" aq.pm100_standard ++
     optMetric "co2" "ppm" aq.co2 ++
     optMetric "voc_index" "index" aq.pm_voc_idx ++
     optMetric "nox_index" "index" aq.pm_nox_idx ++
     optMetric "temperature_pm" "°C" aq.pm_temperature ++
     optMetric "humidity_pm" "%" aq.pm_humidity)

/-- Cache accesses performed while handling one telemetry sample. -/
inductive CacheEvent where
  | positionLookup (nodeId : String)
  | nameLookup (nodeId : String)
  | hardwareLookup (nodeId : String)
deriving DecidableEq, Repr

/-- Per-sample outcome of `_handle_telemetry`: cache reads in order,
sensor types attempted (reached `_publish_reading`), the readings whose
MQTT publish call succeeded, the resulting cache, and whether processing
was cut short by an exception caught by the method's outer handler. -/
structure TelemetryOutcome where
  events : List CacheEvent
  attempted : List String
  published : List Reading
  cache : NodeCache
  aborted : Bool
deriving DecidableEq, Repr

/-- Loop over the present metrics, indexing the broker outcome oracle
`rcOk` by attempt number.  `_publish_reading` always issues the MQTT
publish; when it reports success the following success-log f-string
evaluates the name `node_id`, which is not bound anywhere in that method's
scope, so a `NameError` is raised and propagates to `_handle_telemetry`'s
`except`, skipping every remaining metric.  When it reports failure the
error is logged with in-scope names and the loop continues. -/
def publishLoop (deviceName : String) (timestamp : Nat) (position : PosDict)
    (hardwareModel : Option Nat) (rcOk : Nat → Bool) :
    Nat → List (String × ℚ × String) → List String × List Reading × Bool
  | _, [] => ([], [], false)
  | i, (sensorType, value, unit) :: rest =>
    let r := mkReading deviceName sensorType value timestamp position unit
      hardwareModel
    if rcOk i then ([sensorType], [r], true)
    else
      let (att, pubs, aborted) :=
        publishLoop deviceName timestamp position hardwareModel rcOk (i + 1) rest
      (sensorType :: att, pubs, aborted)

/-- Embedding of `_handle_telemetry`.  A sample with neither metric group
present returns before any cache access; otherwise the position (with
lazy eviction), device name and hardware model are read, the timestamp
chosen (telemetry time when non-zero, else `rx_time`), and each present
metric is published in order. -/
def handleTelemetry (c : NodeCache) (nodeId : String) (t : Telemetry)
    (rxTime now : Nat) (rcOk : Nat → Bool) : TelemetryOutcome :=
  if t.environment_metrics.isNone ∧ t.air_quality_metrics.isNone then
    ⟨[], [], [], c, false⟩
  else
    let (posEntry, c₁) := getPosition c nodeId now
    let position := match posEntry with
      | some p => posDictOfEntry p
      | none => nullPosition
    let deviceName := getDeviceName c₁ nodeId
    let hardwareModel := getHardwareModel c₁ nodeId
    let timestamp := if t.time ≠ 0 then t.time else rxTime
    let (att, pubs, aborted) :=
      publishLoop deviceName timestamp position hardwareModel rcOk 0
        (metricList t)
    ⟨[CacheEvent.positionLookup nodeId, CacheEvent.nameLookup nodeId,
      CacheEvent.hardwareLookup nodeId], att, pubs, c₁, aborted⟩

/-! ## Node-info handler (`_handle_nodeinfo`)

The protobuf `User` has plain proto3 fields; the source guards each
update with Python truthiness (`if user.long_name:` / `if user.hw_model:`),
so the empty string and the zero enum leave the cache untouched. -/

structure User where
  long_name : String
  hw_model : Nat
deriving DecidableEq, Repr

/-- Embedding of `_handle_nodeinfo`; the snapshot written last (if any
mutating call ran) is returned alongside the cache. -/
def handleNodeinfo (c : NodeCache) (nodeId : String) (u : User)
    (now : Nat) : NodeCache × Option Snapshot :=
  let (c₁, f₁) : NodeCache × Option Snapshot :=
    if u.long_name ≠ "" then
      let r := updateName c nodeId u.long_name now
      (r.1, some r.2)
    else (c, none)
  if u.hw_model ≠ 0 then
    let r := updateHardware c₁ nodeId u.hw_model now
    (r.1, some r.2)
  else (c₁, f₁)

/-! ## Helper lemmas -/

theorem normalizeKey_length_le (key : List Nat) (h : key.length ≤ 32) :
    (normalizeKey key).length = 16 ∨ (normalizeKey key).length = 32 := by
  unfold normalizeKey
  by_cases h1 : key.length = 1
  · simp [h1]
  · by_cases h2 : key.length < 16
    · simp [h1, h2]; omega
    · by_cases h3 : key.length < 32
      · simp [h1, h2, h3]; omega
      · simp [h1, h2, h3]; omega

theorem aesKeyValid_normalizeKey (key : List Nat) (h : key.length ≤ 32) :
    aesKeyValid (normalizeKey key) = true := by
  rcases normalizeKey_length_le key h with hl | hl <;>
    simp [aesKeyValid, hl]

theorem ctrBlocks_length (E : List Nat → List Nat → List Nat)
    (hE : ∀ k b, (E k b).length = 16) (key nonce : List Nat) (m : Nat) :
    (ctrBlocks E key nonce m).length = 16 * m := by
  induction m with
  | zero => rfl
  | succ m ih => simp [ctrBlocks, ih, hE]; ring

theorem ctrKeystream_length (E : List Nat → List Nat → List Nat)
    (hE : ∀ k b, (E k b).length = 16) (key nonce : List Nat) (len : Nat) :
    (ctrKeystream E key nonce len).length = len := by
  have hblocks := ctrBlocks_length E hE key nonce ((len + 15) / 16)
  have hcover : len ≤ 16 * ((len + 15) / 16) := by
    have hdm := Nat.div_add_mod (len + 15) 16
    have hlt : (len + 15) % 16 < 16 := Nat.mod_lt _ (by norm_num)
    omega
  simp [ctrKeystream, hblocks]
  omega

theorem ctrProcess_length (E : List Nat → List Nat → List Nat)
    (hE : ∀ k b, (E k b).length = 16) (key nonce data : List Nat) :
    (ctrProcess E key nonce data).length = data.length := by
  simp [ctrProcess, ctrKeystream_length E hE]

theorem zipWith_xor_cancel :
    ∀ (P s : List Nat), P.length ≤ s.length →
      List.zipWith Nat.xor (List.zipWith Nat.xor P s) s = P
  | [], _, _ => by simp
  | p :: P, [], h => by simp at h
  | p :: P, x :: s, h => by
    have ih := zipWith_xor_cancel P s (by simpa using h)
    simp only [List.zipWith, ih]
    exact congrArg (· :: P) (Nat.xor_cancel_right x p)

/-! ## Claims -/

/-- C1, claim as stated is false: a key of exactly 16 bytes is not passed
to the cipher unchanged — the `elif len(key) < 32` branch zero-pads it to
32 bytes. -/
theorem c1_sixteen_byte_key_not_preserved :
    normalizeKey (List.replicate 16 0xAA) ≠ List.replicate 16 0xAA := by
  decide

/-- C1 (amended): keys of exactly 32 bytes pass unchanged; a 1-byte key is
replaced by the fixed block 0x01 plus 15 zero bytes; other keys shorter
than 16 bytes are zero-padded to 16; keys of 16 to 31 bytes — including
exactly 16 — are zero-padded to 32; keys longer than 32 bytes reach the
cipher unchanged and its key-length check rejects them, so decryption
fails with a key-length error. -/
theorem c1_key_normalization (E : List Nat → List Nat → List Nat)
    (key : List Nat) (packetId fromNode : Nat) (ct : List Nat) :
    (key.length = 32 → normalizeKey key = key) ∧
    (key.length = 1 → normalizeKey key = 0x01 :: List.replicate 15 0) ∧
    (key.length ≠ 1 → key.length < 16 →
      normalizeKey key = key ++ List.replicate (16 - key.length) 0) ∧
    (16 ≤ key.length → key.length ≤ 31 →
      normalizeKey key = key ++ List.replicate (32 - key.length) 0) ∧
    (33 ≤ key.length →
      decryptPacket E key packetId fromNode ct = none) := by
  refine ⟨fun h => ?_, fun h => ?_, fun h1 h2 => ?_, fun h1 h2 => ?_,
    fun h => ?_⟩
  · simp [normalizeKey, h]
  · simp [normalizeKey, h]
  · simp [normalizeKey, h1, h2]
  · have ha : ¬ key.length = 1 := by omega
    have hb : ¬ key.length < 16 := by omega
    have hc : key.length < 32 := by omega
    simp [normalizeKey, ha, hb, hc]
  · have ha : ¬ key.length = 1 := by omega
    have hb : ¬ key.length < 16 := by omega
    have hc : ¬ key.length < 32 := by omega
    have hkey : normalizeKey key = key := by simp [normalizeKey, ha, hb, hc]
    have hvalid : aesKeyValid (normalizeKey key) = false := by
      rw [hkey]; simp [aesKeyValid]; omega
    simp [decryptPacket, hvalid]

/-- C1 witness: the amended behavior at a 32-byte key, the 1-byte key,
a 10-byte key, a 20-byte key and a 33-byte key. -/
theorem c1_key_normalization_witness :
    normalizeKey (List.replicate 32 7) = List.replicate 32 7 ∧
    normalizeKey [1] = 0x01 :: List.replicate 15 0 ∧
    normalizeKey (List.replicate 10 5) =
      List.replicate 10 5 ++ List.replicate 6 0 ∧
    normalizeKey (List.replicate 20 9) =
      List.replicate 20 9 ++ List.replicate 12 0 ∧
    decryptPacket (fun _ _ => List.replicate 16 0) (List.replicate 33 2)
      1 2 [3] = none := by
  have h32 := c1_key_normalization (fun _ _ => List.replicate 16 0)
    (List.replicate 32 7) 1 2 [3]
  have h1 := c1_key_normalization (fun _ _ => List.replicate 16 0) [1] 1 2 [3]
  have h10 := c1_key_normalization (fun _ _ => List.replicate 16 0)
    (List.replicate 10 5) 1 2 [3]
  have h20 := c1_key_normalization (fun _ _ => List.replicate 16 0)
    (List.replicate 20 9) 1 2 [3]
  have h33 := c1_key_normalization (fun _ _ => List.replicate 16 0)
    (List.replicate 33 2) 1 2 [3]
  exact ⟨h32.1 (by decide), h1.2.1 (by decide),
    by simpa using h10.2.2.1 (by decide) (by decide),
    by simpa using h20.2.2.2.1 (by decide) (by decide),
    h33.2.2.2.2 (by decide)⟩

theorem mkNonce_length (packetId fromNode : Nat) :
    (mkNonce packetId fromNode).length = 16 := by
  simp [mkNonce, leBytes_length]

theorem mkNonce_bytes_lt (packetId fromNode : Nat) :
    ∀ b ∈ mkNonce packetId fromNode, b < 256 := by
  intro b hb
  simp only [mkNonce, List.mem_append] at hb
  rcases hb with h | h
  · exact leBytes_mem_lt 8 packetId b h
  · exact leBytes_mem_lt 8 fromNode b h

theorem counterBlock_zero (nonce : List Nat) (hlen : nonce.length = 16)
    (hb : ∀ b ∈ nonce, b < 256) : counterBlock nonce 0 = nonce := by
  have hrevlen : nonce.reverse.length = 16 := by simp [hlen]
  have hrevb : ∀ b ∈ nonce.reverse, b < 256 := by simpa using hb
  have hlt : fromLEBytes nonce.reverse < 2 ^ 128 := by
    have h := fromLEBytes_lt nonce.reverse hrevb
    rw [hrevlen] at h
    calc fromLEBytes nonce.reverse < 256 ^ 16 := h
      _ = 2 ^ 128 := by norm_num
  have hround := leBytes_fromLEBytes nonce.reverse hrevb
  rw [hrevlen] at hround
  unfold counterBlock
  rw [Nat.add_zero, Nat.mod_eq_of_lt hlt, hround, List.reverse_reverse]

/-- C3: the nonce is exactly 16 bytes — the little-endian 8-byte encoding
of the uint32 packet id followed by the little-endian 8-byte encoding of
the sender node id (both halves decode back to their source integers) —
and CTR mode uses it unchanged as counter block number zero. -/
theorem c3_nonce_structure (packetId fromNode : Nat)
    (h1 : packetId < 2 ^ 32) (h2 : fromNode < 2 ^ 32) :
    (mkNonce packetId fromNode).length = 16 ∧
    List.take 8 (mkNonce packetId fromNode) = leBytes 8 packetId ∧
    List.drop 8 (mkNonce packetId fromNode) = leBytes 8 fromNode ∧
    fromLEBytes (List.take 8 (mkNonce packetId fromNode)) = packetId ∧
    fromLEBytes (List.drop 8 (mkNonce packetId fromNode)) = fromNode ∧
    counterBlock (mkNonce packetId fromNode) 0 = mkNonce packetId fromNode := by
  have hp : packetId < 256 ^ 8 := lt_of_lt_of_le h1 (by norm_num)
  have hf : fromNode < 256 ^ 8 := lt_of_lt_of_le h2 (by norm_num)
  have htake : List.take 8 (mkNonce packetId fromNode) = leBytes 8 packetId :=
    List.take_left' (leBytes_length 8 packetId)
  have hdrop : List.drop 8 (mkNonce packetId fromNode) = leBytes 8 fromNode :=
    List.drop_left' (leBytes_length 8 packetId)
  refine ⟨mkNonce_length packetId fromNode, htake, hdrop, ?_, ?_, ?_⟩
  · rw [htake]; exact fromLEBytes_leBytes 8 packetId hp
  · rw [hdrop]; exact fromLEBytes_leBytes 8 fromNode hf
  · exact counterBlock_zero _ (mkNonce_length packetId fromNode)
      (mkNonce_bytes_lt packetId fromNode)

/-- C3 witness at packet id 0x12345678 and sender 0x1a2b3c4d. -/
theorem c3_nonce_structure_witness :
    (mkNonce 0x12345678 0x1a2b3c4d).length = 16 ∧
    List.take 8 (mkNonce 0x12345678 0x1a2b3c4d) = leBytes 8 0x12345678 ∧
    List.drop 8 (mkNonce 0x12345678 0x1a2b3c4d) = leBytes 8 0x1a2b3c4d ∧
    fromLEBytes (List.take 8 (mkNonce 0x12345678 0x1a2b3c4d)) = 0x12345678 ∧
    fromLEBytes (List.drop 8 (mkNonce 0x12345678 0x1a2b3c4d)) = 0x1a2b3c4d ∧
    counterBlock (mkNonce 0x12345678 0x1a2b3c4d) 0 =
      mkNonce 0x12345678 0x1a2b3c4d :=
  c3_nonce_structure 0x12345678 0x1a2b3c4d (by norm_num) (by norm_num)

/-- C9: CTR decryption inverts CTR encryption for every plaintext
(including the empty one), every channel key the cipher accepts after
normalization (length at most 32), and every (packetId, fromNode) pair,
for any 16-byte-block keystream function. -/
theorem c9_ctr_round_trip (E : List Nat → List Nat → List Nat)
    (hE : ∀ k b, (E k b).length = 16) (channelKey : List Nat)
    (hk : channelKey.length ≤ 32) (packetId fromNode : Nat) (P : List Nat) :
    (encryptPacket E channelKey packetId fromNode P).bind
      (decryptPacket E channelKey packetId fromNode) = some P := by
  have hvalid := aesKeyValid_normalizeKey channelKey hk
  have hct := ctrProcess_length E hE (normalizeKey channelKey)
    (mkNonce packetId fromNode) P
  have hks := ctrKeystream_length E hE (normalizeKey channelKey)
    (mkNonce packetId fromNode) P.length
  simp only [encryptPacket, decryptPacket, hvalid, if_true, Option.some_bind]
  unfold ctrProcess at hct ⊢
  rw [hct, Option.some_inj]
  exact zipWith_xor_cancel P _ (le_of_eq hks.symm)

/-- Constant 16-byte keystream block used to witness C9. -/
def constBlock : List Nat → List Nat → List Nat :=
  fun _ _ => List.replicate 16 0x5c

/-- C9 witness: round trip of a 3-byte plaintext under the 1-byte default
channel key. -/
theorem c9_ctr_round_trip_witness :
    (encryptPacket constBlock [1] 7 9 [10, 20, 30]).bind
      (decryptPacket constBlock [1] 7 9) = some [10, 20, 30] :=
  c9_ctr_round_trip constBlock (fun _ _ => rfl) [1] (by decide) 7 9 [10, 20, 30]

/-- C4: lazy TTL eviction.  For an entry stored with `updated_at = T`, a
`get_position` at `T + max_age + 1` returns `none` and removes the entry,
while one at `T + max_age - 1` returns the stored position unchanged. -/
theorem c4_ttl_eviction (c : NodeCache) (nodeId : String) (pos : PosEntry)
    (T : Nat) (hpos : dictGet nodeId c.positions = some pos)
    (hT : pos.updated_at = T) (hage : 1 ≤ c.max_age) :
    (getPosition c nodeId (T + c.max_age + 1)).1 = none ∧
    dictGet nodeId (getPosition c nodeId (T + c.max_age + 1)).2.positions =
      none ∧
    (getPosition c nodeId (T + c.max_age - 1)).1 = some pos := by
  have hexp : T + c.max_age + 1 - pos.updated_at > c.max_age := by omega
  have hfresh : ¬ T + c.max_age - 1 - pos.updated_at > c.max_age := by omega
  refine ⟨?_, ?_, ?_⟩
  · simp [getPosition, hpos, hexp]
  · simp [getPosition, hpos, hexp, dictGet_erase]
  · simp [getPosition, hpos, hfresh]

/-- C4 witness: a cache holding one entry stamped at T = 1000 with the
default 24-hour TTL. -/
theorem c4_ttl_eviction_witness :
    1 ≤ (NodeCache.mk [("!abc12345", ⟨1, 2, none, 900, 1000⟩)] [] [] 86400).max_age ∧
    (getPosition (NodeCache.mk [("!abc12345", ⟨1, 2, none, 900, 1000⟩)] [] [] 86400)
      "!abc12345" (1000 + 86400 + 1)).1 = none ∧
    dictGet "!abc12345" (getPosition
      (NodeCache.mk [("!abc12345", ⟨1, 2, none, 900, 1000⟩)] [] [] 86400)
      "!abc12345" (1000 + 86400 + 1)).2.positions = none ∧
    (getPosition (NodeCache.mk [("!abc12345", ⟨1, 2, none, 900, 1000⟩)] [] [] 86400)
      "!abc12345" (1000 + 86400 - 1)).1 = some ⟨1, 2, none, 900, 1000⟩ :=
  ⟨by decide, c4_ttl_eviction _ "!abc12345" ⟨1, 2, none, 900, 1000⟩ 1000
    (by decide) (by decide) (by decide)⟩

/-- C8: every mutating call writes a snapshot that is exactly the
serialization of the new full cache state (positions, names, hardware
models, save timestamp), and loading a snapshot restores the maps while
immediately purging exactly the position entries whose age exceeds the
TTL. -/
theorem c8_write_through_persistence (c : NodeCache) (nodeId : String)
    (lat lon : ℚ) (alt : Option ℤ) (ts : Option Nat) (longName : String)
    (hwModel : Nat) (now : Nat) (s : Snapshot) (maxAge : Nat) :
    (updatePosition c nodeId lat lon alt ts now).2 =
      saveCache (updatePosition c nodeId lat lon alt ts now).1 now ∧
    (updateName c nodeId longName now).2 =
      saveCache (updateName c nodeId longName now).1 now ∧
    (updateHardware c nodeId hwModel now).2 =
      saveCache (updateHardware c nodeId hwModel now).1 now ∧
    (loadCache maxAge (some s) now).node_names = s.node_names ∧
    (loadCache maxAge (some s) now).hardware_models = s.hardware_models ∧
    (∀ e, e ∈ (loadCache maxAge (some s) now).positions ↔
      e ∈ s.positions ∧ now - e.2.updated_at ≤ maxAge) := by
  refine ⟨rfl, rfl, rfl, rfl, rfl, fun e => ?_⟩
  simp only [loadCache, cleanupOld, List.mem_filter, decide_eq_true_eq,
    not_lt, gt_iff_lt]

/-- C10: lazy eviction of an expired position touches nothing else — the
cached names and hardware models are unchanged, the device name still
derives from the cached long name, and no snapshot is produced (mutators
return the snapshot they write; `get_position` has none to return). -/
theorem c10_eviction_frame (c : NodeCache) (nodeId : String)
    (pos : PosEntry) (longName : String) (now : Nat)
    (hpos : dictGet nodeId c.positions = some pos)
    (hexp : now - pos.updated_at > c.max_age)
    (hname : dictGet nodeId c.node_names = some longName) :
    (getPosition c nodeId now).1 = none ∧
    (getPosition c nodeId now).2.node_names = c.node_names ∧
    (getPosition c nodeId now).2.hardware_models = c.hardware_models ∧
    getDeviceName (getPosition c nodeId now).2 nodeId =
      sanitizeName longName ++ "_" ++ nodeId ∧
    getDeviceName (getPosition c nodeId now).2 nodeId =
      getDeviceName c nodeId := by
  have hstep : getPosition c nodeId now =
      (none, { c with positions := dictErase nodeId c.positions }) := by
    simp [getPosition, hpos, hexp]
  rw [hstep]
  exact ⟨rfl, rfl, rfl, by simp [getDeviceName, hname],
    by simp [getDeviceName, hname]⟩

/-- C10 witness: an expired entry for a named node. -/
theorem c10_eviction_frame_witness :
    (getPosition (NodeCache.mk [("!aa", ⟨3, 4, some 7, 10, 10⟩)]
      [("!aa", "Old Node")] [("!aa", 9)] 86400) "!aa" 100000).1 = none ∧
    (getPosition (NodeCache.mk [("!aa", ⟨3, 4, some 7, 10, 10⟩)]
      [("!aa", "Old Node")] [("!aa", 9)] 86400) "!aa" 100000).2.node_names =
      [("!aa", "Old Node")] ∧
    (getPosition (NodeCache.mk [("!aa", ⟨3, 4, some 7, 10, 10⟩)]
      [("!aa", "Old Node")] [("!aa", 9)] 86400) "!aa" 100000).2.hardware_models =
      [("!aa", 9)] ∧
    getDeviceName (getPosition (NodeCache.mk [("!aa", ⟨3, 4, some 7, 10, 10⟩)]
      [("!aa", "Old Node")] [("!aa", 9)] 86400) "!aa" 100000).2 "!aa" =
      sanitizeName "Old Node" ++ "_" ++ "!aa" ∧
    getDeviceName (getPosition (NodeCache.mk [("!aa", ⟨3, 4, some 7, 10, 10⟩)]
      [("!aa", "Old Node")] [("!aa", 9)] 86400) "!aa" 100000).2 "!aa" =
      getDeviceName (NodeCache.mk [("!aa", ⟨3, 4, some 7, 10, 10⟩)]
      [("!aa", "Old Node")] [("!aa", 9)] 86400) "!aa" :=
  c10_eviction_frame _ "!aa" ⟨3, 4, some 7, 10, 10⟩ "Old Node" 100000
    (by decide) (by decide) (by decide)

/-- C5: a telemetry sample with neither the environmental nor the
air-quality group present produces no publish attempt, no cache access
and no cache change — the handler returns before any lookup. -/
theorem c5_no_qualifying_metrics (c : NodeCache) (nodeId : String)
    (t : Telemetry) (rxTime now : Nat) (rcOk : Nat → Bool)
    (henv : t.environment_metrics = none)
    (haq : t.air_quality_metrics = none) :
    handleTelemetry c nodeId t rxTime now rcOk = ⟨[], [], [], c, false⟩ := by
  simp [handleTelemetry, henv, haq]

/-- C5 witness: a sample carrying only a timestamp (as when only the
device-metrics group is present). -/
theorem c5_no_qualifying_metrics_witness :
    handleTelemetry (NodeCache.mk [] [] [] 86400) "!aa"
      (Telemetry.mk 700 none none) 500 1000 (fun _ => true) =
      ⟨[], [], [], NodeCache.mk [] [] [] 86400, false⟩ :=
  c5_no_qualifying_metrics (NodeCache.mk [] [] [] 86400) "!aa"
    (Telemetry.mk 700 none none) 500 1000 (fun _ => true) rfl rfl

/-- C7: identity updates merge.  An update whose long name is absent
(empty) leaves the stored names untouched, and after setting
long_name = "Node A" and then applying an update carrying only a
hardware class, the device name still derives from "Node A". -/
theorem c7_identity_merge (c : NodeCache) (nodeId : String) (u : User)
    (now t₁ t₂ hw : Nat) (hu : u.long_name = "") :
    (handleNodeinfo c nodeId u now).1.node_names = c.node_names ∧
    getDeviceName (handleNodeinfo
        (handleNodeinfo c nodeId ⟨"Node A", 0⟩ t₁).1 nodeId ⟨"", hw⟩ t₂).1
      nodeId = sanitizeName "Node A" ++ "_" ++ nodeId := by
  constructor
  · by_cases hh : u.hw_model = 0 <;>
      simp [handleNodeinfo, hu, hh, updateHardware]
  · by_cases hh : hw = 0 <;>
      simp [handleNodeinfo, updateName, updateHardware, getDeviceName,
        dictGet_insert, hh]

/-- C7 witness: a node with no prior state receives "Node A", then a
hardware-only update (class 43). -/
theorem c7_identity_merge_witness :
    (handleNodeinfo (NodeCache.mk [] [] [] 86400) "!1a2b3c4d"
      (User.mk "" 43) 50).1.node_names = [] ∧
    getDeviceName (handleNodeinfo
        (handleNodeinfo (NodeCache.mk [] [] [] 86400) "!1a2b3c4d"
          (User.mk "Node A" 0) 50).1 "!1a2b3c4d" (User.mk "" 43) 60).1
      "!1a2b3c4d" = sanitizeName "Node A" ++ "_" ++ "!1a2b3c4d" :=
  c7_identity_merge (NodeCache.mk [] [] [] 86400) "!1a2b3c4d"
    (User.mk "" 43) 50 50 60 43 rfl

/-- Cache state of C2's scenario: node `!1a2b3c4d` with a cached position
(lat = -36.848, lon = 174.763, stamped at 1000) and long name
"Garden Sensor". -/
def gardenCache : NodeCache :=
  ⟨[("!1a2b3c4d", ⟨-4606/125, 174763/1000, none, 900, 1000⟩)],
   [("!1a2b3c4d", "Garden Sensor")], [], 86400⟩

/-- Telemetry of C2's scenario: temperature 21.5 and relative humidity
55.0 present, nothing else. -/
def gardenTelemetry : Telemetry :=
  ⟨600, some ⟨some (43/2), some 55, none, none, none⟩, none⟩

/-- C2, against the code as written: with every broker publish succeeding,
only the temperature reading is published.  Its success log line
references `node_id`, a name not bound in `_publish_reading`, so a
`NameError` is raised after the first successful publish and the humidity
metric is never processed: the outcome is one published reading, one
attempted metric, and an aborted sample — not the two readings the claim
requires. -/
theorem c2_two_readings_bug :
    (handleTelemetry gardenCache "!1a2b3c4d" gardenTelemetry 500 1000
      (fun _ => true)).published =
      [mkReading "Garden_Sensor_!1a2b3c4d" "temperature" (43/2) 600
        ⟨some (-4606/125), some (174763/1000), none⟩ "°C" none] ∧
    (handleTelemetry gardenCache "!1a2b3c4d" gardenTelemetry 500 1000
      (fun _ => true)).attempted = ["temperature"] ∧
    (handleTelemetry gardenCache "!1a2b3c4d" gardenTelemetry 500 1000
      (fun _ => true)).aborted = true :=
  ⟨rfl, rfl, rfl⟩

/-- Telemetry of C6's scenario: temperature, humidity and pressure all
present. -/
def threeMetricTelemetry : Telemetry :=
  ⟨600, some ⟨some 1, some 2, some 3, none, none⟩, none⟩

/-- C6, against the code as written: with the temperature publish failing
(logged, loop continues — the failure itself is non-fatal) and the
humidity publish succeeding, the success log's unbound `node_id` raises
`NameError` and the pressure metric is never processed, so a failed
publish followed by a successful one does leave a remaining present
metric unprocessed, contradicting the claim. -/
theorem c6_partial_failure_bug :
    (handleTelemetry (NodeCache.mk [] [] [] 86400) "!aa"
      threeMetricTelemetry 500 1000 (fun i => i == 1)).attempted =
      ["temperature", "humidity"] ∧
    (handleTelemetry (NodeCache.mk [] [] [] 86400) "!aa"
      threeMetricTelemetry 500 1000 (fun i => i == 1)).published =
      [mkReading "!aa" "humidity" 2 600 nullPosition "%" none] ∧
    (handleTelemetry (NodeCache.mk [] [] [] 86400) "!aa"
      threeMetricTelemetry 500 1000 (fun i => i == 1)).aborted = true := by
  decide

end Respiro
